import Mathlib

/-!
# Verification of the Tinder scraper collector loop

Shallow embedding of `src/tinder_scrap.py` (class `TinderScraper`): the age
calculator, the per-page user extractor with its dedup check, the CSV append,
and the `run_continuous_scraping` orchestration loop.  Python dictionaries
from the JSON payload are embedded as structures with `Option` fields for
keys that may be absent; `datetime` values are embedded as a `Date` record,
and `datetime.now()` is passed explicitly as a `now` parameter.  Exceptions
that the Python code can raise while handling a response body are embedded
with `Except`.
-/

namespace TinderScrap

/-- A calendar date, standing for the (year, month, day) part of a Python
`datetime`. -/
structure Date where
  year : Nat
  month : Nat
  day : Nat
deriving DecidableEq, Repr

/-- Gregorian leap-year rule, as used by Python `datetime`. -/
def isLeapYear (y : Nat) : Bool :=
  (y % 4 = 0 && y % 100 ≠ 0) || y % 400 = 0

/-- Number of days in a month, as validated by Python `datetime`. -/
def daysInMonth (y m : Nat) : Nat :=
  if m = 2 then (if isLeapYear y then 29 else 28)
  else if m = 4 ∨ m = 6 ∨ m = 9 ∨ m = 11 then 30
  else 31

/-- Numeric value of a decimal digit character. -/
def digitVal (c : Char) : Nat := c.toNat - 48

/-- Left-to-right replacement of every non-overlapping occurrence of `old`
by `new`, on character lists.  The first argument is fuel, instantiated with
the list's length so the recursion is structural; it never runs out on a
nonempty `old`. -/
def replaceCore (old new : List Char) : Nat → List Char → List Char
  | _, [] => []
  | 0, l => l
  | fuel + 1, c :: t =>
    if old.isPrefixOf (c :: t) then
      new ++ replaceCore old new fuel (List.drop old.length (c :: t))
    else c :: replaceCore old new fuel t

/-- Embedding of Python `str.replace(old, new)` for a nonempty `old`:
replaces every non-overlapping occurrence, scanning left to right. -/
def pyReplace (s old new : String) : String :=
  ⟨replaceCore old.toList new.toList s.toList.length s.toList⟩

/-- Embedding of Python `datetime.fromisoformat` restricted to what the
scraper feeds it: a `YYYY-MM-DD` date, optionally followed by a time-of-day
part introduced by `T` or a space.  Returns `none` where Python raises
`ValueError`: wrong shape, non-digit characters, year 0, month outside 1..12,
or day outside the month's range.  The time-of-day digits after the separator
are not validated further; no claim depends on them. -/
def parseIsoDate (s : String) : Option Date :=
  match s.toList with
  | y1 :: y2 :: y3 :: y4 :: '-' :: m1 :: m2 :: '-' :: d1 :: d2 :: rest =>
    if y1.isDigit && y2.isDigit && y3.isDigit && y4.isDigit &&
        m1.isDigit && m2.isDigit && d1.isDigit && d2.isDigit then
      let y := 1000 * digitVal y1 + 100 * digitVal y2 + 10 * digitVal y3 + digitVal y4
      let m := 10 * digitVal m1 + digitVal m2
      let d := 10 * digitVal d1 + digitVal d2
      let sepOk : Bool := match rest with
        | [] => true
        | 'T' :: _ => true
        | ' ' :: _ => true
        | _ => false
      if 1 ≤ y ∧ 1 ≤ m ∧ m ≤ 12 ∧ 1 ≤ d ∧ d ≤ daysInMonth y m ∧ sepOk then
        some ⟨y, m, d⟩
      else none
    else none
  | _ => none

/-- Result of `calculate_age`: a whole-year age, or the string sentinel
`"N/A"` the Python code returns on any failure. -/
inductive AgeResult where
  | age (n : Int)
  | na
deriving DecidableEq, Repr

/-- Embedding of `TinderScraper.calculate_age` (src/tinder_scrap.py lines
37-53).  `now` stands for `datetime.now()` at call time.  The bare `except`
of the source is embedded by the parser returning `none`: every parse
failure yields the `N/A` sentinel instead of an error. -/
def calculate_age (now : Date) (birth_date_str : String) : AgeResult :=
  if birth_date_str = "" ∨ birth_date_str = "N/A" then .na
  else
    match parseIsoDate (pyReplace birth_date_str "Z" "+00:00") with
    | none => .na
    | some birth_date =>
      let a : Int := (now.year : Int) - (birth_date.year : Int)
      if now.month < birth_date.month ∨
          (now.month = birth_date.month ∧ now.day < birth_date.day) then
        .age (a - 1)
      else .age a

/-- One entry of a user's `photos` list; `url` is `p.get('url')`
(`none` when the key is absent or null). -/
structure Photo where
  url : Option String
deriving DecidableEq, Repr

/-- The `user` object of one result entry.  Each field embeds a `.get`
access: `none` models an absent (or null, for `bio`) key. -/
structure UserObj where
  id : Option String
  name : Option String
  bio : Option String
  birth_date : Option String
  photos : List Photo
deriving DecidableEq, Repr

/-- The `{}` default of `result.get('user', {})`: every `.get` on it
returns its default. -/
def emptyUserObj : UserObj := ⟨none, none, none, none, []⟩

/-- One entry of `data['data']['results']`. -/
structure ResultEntry where
  type : Option String
  user : Option UserObj
deriving DecidableEq, Repr

/-- A parsed JSON page as seen by `extract_users_from_response`: either the
dict lacks the `data` key, or `data` lacks `results`, or the results list is
present. -/
inductive Page where
  | noData
  | noResults
  | results (rs : List ResultEntry)
deriving DecidableEq, Repr

/-- One collected row (`user_data` dict of the source / one CSV row). -/
structure UserRecord where
  user_id : String
  name : String
  age : AgeResult
  bio : String
  birth_date : String
  photo_count : Nat
  photo_urls : String
deriving DecidableEq, Repr

/-- The `user_data` dict built for one surviving entry (src/tinder_scrap.py
lines 161-172): `name` defaults to `""`; `bio` defaults to `""` on a
missing or null key and then has `\n`, then `\r`, each replaced by a space;
`photo_count` counts all photo entries; `photo_urls` joins the non-empty
`url` fields with `" | "` in source order. -/
def mkRecord (now : Date) (user : UserObj) (user_id : String) : UserRecord :=
  let photos := user.photos
  let photo_urls := photos.filterMap fun p =>
    match p.url with
    | some u => if u = "" then none else some u
    | none => none
  { user_id := user_id
    name := user.name.getD ""
    age := calculate_age now (user.birth_date.getD "")
    bio := pyReplace (pyReplace (user.bio.getD "") "\n" " ") "\r" " "
    birth_date := user.birth_date.getD ""
    photo_count := photos.length
    photo_urls := String.intercalate " | " photo_urls }

/-- The body of one loop iteration of `extract_users_from_response`
(src/tinder_scrap.py lines 151-175): given the accumulated
`(users_collected, users_found)` pair and one result entry, skip it if its
type is not `"user"`, its id is missing/empty, or its id already occurs in
the collection; otherwise build the record and append it. -/
def processResult (now : Date) (acc : List UserRecord × Nat)
    (result : ResultEntry) : List UserRecord × Nat :=
  if result.type ≠ some "user" then acc
  else
    let user := result.user.getD emptyUserObj
    match user.id with
    | none => acc
    | some user_id =>
      if user_id = "" ∨ acc.1.any (fun u => u.user_id = user_id) then acc
      else (acc.1 ++ [mkRecord now user user_id], acc.2 + 1)

/-- Embedding of `TinderScraper.extract_users_from_response`
(src/tinder_scrap.py lines 145-177) on a parsed JSON page.  Takes the
current `users_collected` list and returns the updated list together with
`users_found`.  A page lacking `data` or `data.results` yields
`(collected, 0)` (source line 147-148). -/
def extract_users_from_response (now : Date) (collected : List UserRecord) :
    Page → List UserRecord × Nat
  | .noData => (collected, 0)
  | .noResults => (collected, 0)
  | .results rs => rs.foldl (processResult now) (collected, 0)

/-- The second component of the pair `make_recs_request` returns: a parsed
JSON page (HTTP 200, valid JSON), or raw text (non-200 status, transport
error description, or a 200 body that failed JSON parsing — source line 143
returns `response.text` in that case). -/
inductive Body where
  | json (p : Page)
  | text (s : String)
deriving DecidableEq, Repr

/-- A Python exception escaping a function that does not catch it. -/
inductive PyError where
  | typeError
deriving DecidableEq, Repr

/-- Boolean substring test: Python `needle in hay` on strings
(character lists here). -/
def containsSub (needle : List Char) : List Char → Bool
  | [] => needle.isEmpty
  | c :: t => needle.isPrefixOf (c :: t) || containsSub needle t

/-- What the call `self.extract_users_from_response(response_data)` does on
an arbitrary body.  On a parsed page it is `extract_users_from_response`.
On a string (a 200 body that failed JSON parsing), Python evaluates
`'data' not in data` as a substring test: if `"data"` is not a substring the
function returns 0 having added nothing; otherwise `data['data']` — string
indexed by a string — raises `TypeError`, which no caller catches. -/
def extract_users_from_body (now : Date) (collected : List UserRecord) :
    Body → Except PyError (List UserRecord × Nat)
  | .json p => .ok (extract_users_from_response now collected p)
  | .text s =>
    if containsSub "data".toList s.toList then .error .typeError
    else .ok (collected, 0)

/-- Embedding of `TinderScraper.save_users_to_csv` (src/tinder_scrap.py
lines 179-186): the CSV file is the list of rows written so far; a call
appends the batch (an empty batch returns early, appending nothing). -/
def save_users_to_csv (csv_rows new_users_data : List UserRecord) :
    List UserRecord :=
  if new_users_data = [] then csv_rows
  else csv_rows ++ new_users_data

/-- One event of the environment script consumed per loop cycle: either
`make_recs_request` returns `(status, body)` (`status = none` is the `None`
sentinel of a transport failure), or a `KeyboardInterrupt` arrives at the
cycle's suspension point. -/
inductive Event where
  | resp (status : Option Nat) (body : Body)
  | interrupt
deriving DecidableEq, Repr

/-- How a run of `run_continuous_scraping` ended.  `outOfScript` marks a
run whose environment script was exhausted while the loop would have
continued — the Python loop would simply keep polling. -/
inductive StopReason where
  | non200
  | emptyPage
  | requestLimit
  | interrupted
  | crashed (e : PyError)
  | outOfScript
deriving DecidableEq, Repr

/-- Mutable state of one run: `self.request_count`, `self.users_collected`,
and the rows appended to the CSV file after its header. -/
structure ScrapeState where
  request_count : Nat
  users_collected : List UserRecord
  csv_rows : List UserRecord
deriving DecidableEq, Repr

/-- The initial state set up in `__init__`: counter 0, empty collection,
freshly initialized (header-only) CSV file. -/
def initState : ScrapeState := ⟨0, [], []⟩

/-- What the `finally` block of `run_continuous_scraping` prints
(src/tinder_scrap.py lines 223-236): total requests, total unique users,
the CSV location, and a preview of at most the first 5 collected records. -/
structure Summary where
  total_requests : Nat
  total_users : Nat
  csv_location : String
  preview : List UserRecord
deriving DecidableEq, Repr

/-- Builds the summary from the final state, as the `finally` block does. -/
def make_summary (csv_filename : String) (s : ScrapeState) : Summary :=
  { total_requests := s.request_count
    total_users := s.users_collected.length
    csv_location := csv_filename
    preview := s.users_collected.take 5 }

/-- The `while` guard `not max_requests or self.request_count < max_requests`
(source line 196).  Python truthiness: `not max_requests` is true when
`max_requests` is `None` or `0`. -/
def loop_guard (max_requests : Option Nat) (request_count : Nat) : Bool :=
  match max_requests with
  | none => true
  | some n => if n = 0 then true else request_count < n

/-- The `try` part of `run_continuous_scraping` (src/tinder_scrap.py lines
195-218), one recursive step per loop cycle, consuming one script event per
cycle.  Per cycle: check the guard; increment the counter; fetch (an
`interrupt` event ends the run as `interrupted`); break on a status other
than 200; extract users from the body (a `TypeError` escapes as `crashed`);
if new users were found, save the new slice `users_collected[initial:]` to
the CSV and loop, otherwise break as `emptyPage`. -/
def run_loop (now : Date) (max_requests : Option Nat) :
    ScrapeState → List Event → ScrapeState × StopReason
  | s, [] =>
    if loop_guard max_requests s.request_count then (s, .outOfScript)
    else (s, .requestLimit)
  | s, e :: rest =>
    if loop_guard max_requests s.request_count then
      let s1 : ScrapeState := { s with request_count := s.request_count + 1 }
      match e with
      | .interrupt => (s1, .interrupted)
      | .resp status body =>
        if status ≠ some 200 then (s1, .non200)
        else
          match extract_users_from_body now s1.users_collected body with
          | .error err => (s1, .crashed err)
          | .ok (newCollected, new_users_count) =>
            let s2 : ScrapeState := { s1 with users_collected := newCollected }
            if new_users_count > 0 then
              let new_batch := newCollected.drop s1.users_collected.length
              run_loop now max_requests
                { s2 with csv_rows := save_users_to_csv s2.csv_rows new_batch }
                rest
            else (s2, .emptyPage)
    else (s, .requestLimit)

/-- Embedding of `TinderScraper.run_continuous_scraping`
(src/tinder_scrap.py lines 188-236) for one run from a fresh scraper: runs
the loop from `initState` against the environment script and then — on
every exit path, the `finally` block — produces the summary from the final
state.  A `crashed` reason models an exception that escapes the loop: the
`finally` block still runs before the process dies. -/
def run_continuous_scraping (now : Date) (csv_filename : String)
    (max_requests : Option Nat) (events : List Event) :
    ScrapeState × StopReason × Summary :=
  let r := run_loop now max_requests initState events
  (r.1, r.2, make_summary csv_filename r.1)

/-! ## Lemma layer -/

/-- The id under which `processResult` would consider inserting an entry:
`none` when the entry is skipped unconditionally (wrong type, missing id,
empty id). -/
def eligibleId (e : ResultEntry) : Option String :=
  if e.type ≠ some "user" then none
  else
    match (e.user.getD emptyUserObj).id with
    | none => none
    | some user_id => if user_id = "" then none else some user_id

/-- `processResult` skips an entry with no eligible id. -/
theorem processResult_skip (now : Date) (acc : List UserRecord × Nat)
    (e : ResultEntry) (h : eligibleId e = none) :
    processResult now acc e = acc := by
  unfold eligibleId at h
  unfold processResult
  by_cases ht : e.type ≠ some "user"
  · simp [ht]
  · rw [if_neg ht] at h
    rw [if_neg ht]
    cases hid : (e.user.getD emptyUserObj).id with
    | none => simp only [hid]
    | some uid =>
      simp only [hid] at h
      by_cases hu : uid = ""
      · simp only [hid]
        rw [if_pos (Or.inl hu)]
      · rw [if_neg hu] at h
        exact absurd h (by simp)

/-- `processResult` skips an entry whose eligible id already occurs in the
collection. -/
theorem processResult_dup (now : Date) (acc : List UserRecord × Nat)
    (e : ResultEntry) (uid : String) (h : eligibleId e = some uid)
    (hm : acc.1.any (fun u => u.user_id = uid) = true) :
    processResult now acc e = acc := by
  unfold eligibleId at h
  unfold processResult
  by_cases ht : e.type ≠ some "user"
  · simp [ht] at h
  · rw [if_neg ht] at h
    rw [if_neg ht]
    cases hid : (e.user.getD emptyUserObj).id with
    | none => simp [hid] at h
    | some uid2 =>
      simp only [hid] at h
      by_cases hu : uid2 = ""
      · simp [hu] at h
      · rw [if_neg hu] at h
        cases h
        simp only [hid]
        rw [if_pos (Or.inr hm)]

/-- `processResult` appends exactly one record, carrying the eligible id,
when that id is not yet in the collection. -/
theorem processResult_app (now : Date) (acc : List UserRecord × Nat)
    (e : ResultEntry) (uid : String) (h : eligibleId e = some uid)
    (hm : acc.1.any (fun u => u.user_id = uid) = false) :
    processResult now acc e
      = (acc.1 ++ [mkRecord now (e.user.getD emptyUserObj) uid], acc.2 + 1) := by
  unfold eligibleId at h
  unfold processResult
  by_cases ht : e.type ≠ some "user"
  · simp [ht] at h
  · rw [if_neg ht] at h
    rw [if_neg ht]
    cases hid : (e.user.getD emptyUserObj).id with
    | none => simp [hid] at h
    | some uid2 =>
      simp only [hid] at h
      by_cases hu : uid2 = ""
      · simp [hu] at h
      · rw [if_neg hu] at h
        cases h
        simp only [hid]
        rw [if_neg]
        intro hor
        rcases hor with h1 | h2
        · exact hu h1
        · rw [hm] at h2
          exact Bool.false_ne_true h2

/-- The record appended by `processResult` carries the entry's eligible id. -/
theorem mkRecord_user_id (now : Date) (user : UserObj) (uid : String) :
    (mkRecord now user uid).user_id = uid := rfl

/-- An id is absent from the mapped ids exactly when the `any` dedup scan
of the source returns `false`. -/
theorem not_mem_of_any_false (l : List UserRecord) (uid : String)
    (hm : l.any (fun u => u.user_id = uid) = false) :
    uid ∉ l.map UserRecord.user_id := by
  intro hmem
  rcases List.mem_map.mp hmem with ⟨u, hu, rfl⟩
  have hta : l.any (fun u2 => u2.user_id = u.user_id) = true :=
    List.any_eq_true.mpr ⟨u, hu, by simp⟩
  rw [hm] at hta
  exact Bool.false_ne_true hta

/-- The `any` dedup scan of the source returns `true` on a present id. -/
theorem any_true_of_mem (l : List UserRecord) (uid : String)
    (hmem : uid ∈ l.map UserRecord.user_id) :
    l.any (fun u => u.user_id = uid) = true := by
  rcases List.mem_map.mp hmem with ⟨u, hu, rfl⟩
  exact List.any_eq_true.mpr ⟨u, hu, by simp⟩

/-- Case split for `processResult`: either the pair is unchanged, or one new
record with a fresh eligible id is appended. -/
theorem processResult_cases (now : Date) (acc : List UserRecord × Nat)
    (e : ResultEntry) :
    processResult now acc e = acc ∨
      ∃ uid, eligibleId e = some uid ∧
        acc.1.any (fun u => u.user_id = uid) = false ∧
        processResult now acc e
          = (acc.1 ++ [mkRecord now (e.user.getD emptyUserObj) uid],
             acc.2 + 1) := by
  cases h : eligibleId e with
  | none => exact Or.inl (processResult_skip now acc e h)
  | some uid =>
    cases hm : acc.1.any (fun u => u.user_id = uid) with
    | true => exact Or.inl (processResult_dup now acc e uid h hm)
    | false => exact Or.inr ⟨uid, rfl, hm, processResult_app now acc e uid h hm⟩

/-- The collection only grows under `processResult`. -/
theorem processResult_grow (now : Date) (acc : List UserRecord × Nat)
    (e : ResultEntry) :
    ∃ tl, (processResult now acc e).1 = acc.1 ++ tl := by
  rcases processResult_cases now acc e with h | ⟨uid, _, _, h⟩
  · exact ⟨[], by simp [h]⟩
  · exact ⟨[mkRecord now (e.user.getD emptyUserObj) uid], by rw [h]⟩

/-- The collection only grows across a fold of `processResult`. -/
theorem foldl_processResult_grow (now : Date) (rs : List ResultEntry) :
    ∀ acc : List UserRecord × Nat,
      ∃ tl, (rs.foldl (processResult now) acc).1 = acc.1 ++ tl := by
  induction rs with
  | nil => intro acc; exact ⟨[], by simp⟩
  | cons e rest ih =>
    intro acc
    obtain ⟨tl1, h1⟩ := processResult_grow now acc e
    obtain ⟨tl2, h2⟩ := ih (processResult now acc e)
    exact ⟨tl1 ++ tl2, by rw [List.foldl_cons, h2, h1, List.append_assoc]⟩

/-- Uniqueness of collected ids is preserved by `processResult`. -/
theorem processResult_nodup (now : Date) (acc : List UserRecord × Nat)
    (e : ResultEntry) (h : (acc.1.map UserRecord.user_id).Nodup) :
    ((processResult now acc e).1.map UserRecord.user_id).Nodup := by
  rcases processResult_cases now acc e with heq | ⟨uid, _, hm, heq⟩
  · rw [heq]; exact h
  · rw [heq]
    simp only [List.map_append, List.map_cons, List.map_nil, mkRecord_user_id]
    rw [List.nodup_append]
    refine ⟨h, List.nodup_singleton _, ?_⟩
    intro a ha hb
    rw [List.mem_singleton.mp hb] at ha
    exact not_mem_of_any_false acc.1 uid hm ha

/-- Uniqueness of collected ids is preserved by a fold of `processResult`. -/
theorem foldl_processResult_nodup (now : Date) (rs : List ResultEntry) :
    ∀ acc : List UserRecord × Nat, (acc.1.map UserRecord.user_id).Nodup →
      ((rs.foldl (processResult now) acc).1.map UserRecord.user_id).Nodup := by
  induction rs with
  | nil => intro acc h; exact h
  | cons e rest ih => intro acc h; exact ih _ (processResult_nodup now acc e h)

/-- The extractor only appends to the collection it is given. -/
theorem extract_grow (now : Date) (collected : List UserRecord) (p : Page) :
    ∃ tl, (extract_users_from_response now collected p).1 = collected ++ tl := by
  cases p with
  | noData => exact ⟨[], by simp [extract_users_from_response]⟩
  | noResults => exact ⟨[], by simp [extract_users_from_response]⟩
  | results rs => exact foldl_processResult_grow now rs (collected, 0)

/-- The extractor preserves uniqueness of collected ids. -/
theorem extract_nodup (now : Date) (collected : List UserRecord) (p : Page)
    (h : (collected.map UserRecord.user_id).Nodup) :
    ((extract_users_from_response now collected p).1.map
      UserRecord.user_id).Nodup := by
  cases p with
  | noData => exact h
  | noResults => exact h
  | results rs => exact foldl_processResult_nodup now rs (collected, 0) h

/-- After `processResult`, the entry's eligible id is in the collection. -/
theorem processResult_covers (now : Date) (acc : List UserRecord × Nat)
    (e : ResultEntry) (uid : String) (h : eligibleId e = some uid) :
    uid ∈ (processResult now acc e).1.map UserRecord.user_id := by
  cases hm : acc.1.any (fun u => u.user_id = uid) with
  | true =>
    rw [processResult_dup now acc e uid h hm]
    rcases List.any_eq_true.mp hm with ⟨u, hu, he⟩
    exact List.mem_map.mpr ⟨u, hu, by simpa using he⟩
  | false =>
    rw [processResult_app now acc e uid h hm]
    simp [mkRecord_user_id]

/-- Membership of an id in the collection survives a fold of
`processResult`. -/
theorem foldl_mem_mono (now : Date) (rs : List ResultEntry)
    (acc : List UserRecord × Nat) (uid : String)
    (h : uid ∈ acc.1.map UserRecord.user_id) :
    uid ∈ (rs.foldl (processResult now) acc).1.map UserRecord.user_id := by
  obtain ⟨tl, htl⟩ := foldl_processResult_grow now rs acc
  rw [htl, List.map_append]
  exact List.mem_append_left _ h

/-- After a fold over a results list, the eligible id of every entry of the
list is in the collection. -/
theorem foldl_covers (now : Date) (rs : List ResultEntry) :
    ∀ acc : List UserRecord × Nat, ∀ e ∈ rs, ∀ uid, eligibleId e = some uid →
      uid ∈ (rs.foldl (processResult now) acc).1.map UserRecord.user_id := by
  induction rs with
  | nil => intro acc e he; cases he
  | cons e2 rest ih =>
    intro acc e he uid helig
    rcases List.mem_cons.mp he with rfl | hmem2
    · exact foldl_mem_mono now rest _ uid (processResult_covers now acc e uid helig)
    · exact ih _ e hmem2 uid helig

/-- A fold of `processResult` over entries whose eligible ids are all
already collected changes nothing. -/
theorem foldl_fixed (now : Date) (l : List ResultEntry) :
    ∀ acc : List UserRecord × Nat,
      (∀ e ∈ l, ∀ uid, eligibleId e = some uid →
        uid ∈ acc.1.map UserRecord.user_id) →
      l.foldl (processResult now) acc = acc := by
  induction l with
  | nil => intro acc _; rfl
  | cons e rest ih =>
    intro acc hcov
    have hstep : processResult now acc e = acc := by
      cases helig : eligibleId e with
      | none => exact processResult_skip now acc e helig
      | some uid =>
        exact processResult_dup now acc e uid helig
          (any_true_of_mem _ _ (hcov e (List.mem_cons_self e rest) uid helig))
    rw [List.foldl_cons, hstep]
    exact ih acc fun e2 he2 uid h2 => hcov e2 (List.mem_cons_of_mem e he2) uid h2

/-- Re-extracting the same results list on top of a collection that has
already absorbed it adds nothing: the collection is unchanged and the
reported count is 0. -/
theorem extract_idem (now : Date) (collected : List UserRecord)
    (rs : List ResultEntry) :
    extract_users_from_response now
        (extract_users_from_response now collected (.results rs)).1 (.results rs)
      = ((extract_users_from_response now collected (.results rs)).1, 0) := by
  show rs.foldl (processResult now)
      ((rs.foldl (processResult now) (collected, 0)).1, 0) = _
  exact foldl_fixed now rs _ fun e he uid helig =>
    foldl_covers now rs (collected, 0) e he uid helig

/-- `save_users_to_csv` appends the batch to the file: the early return on
an empty batch appends nothing, which is the same as appending `[]`. -/
theorem save_users_to_csv_eq (csv_rows b : List UserRecord) :
    save_users_to_csv csv_rows b = csv_rows ++ b := by
  by_cases hb : b = []
  · simp [save_users_to_csv, hb]
  · simp [save_users_to_csv, hb]

/-- The `while` guard always passes before the first request: with the
counter at 0, `not max_requests or 0 < max_requests` is true for `None`,
for `0`, and for any positive limit. -/
theorem loop_guard_zero (mr : Option Nat) : loop_guard mr 0 = true := by
  cases mr with
  | none => rfl
  | some n =>
    cases n with
    | zero => rfl
    | succ k => simp [loop_guard]

/-- Loop step: a false guard stops the run as `requestLimit` without
consuming the next event. -/
theorem run_loop_limit (now : Date) (mr : Option Nat) (s : ScrapeState)
    (e : Event) (rest : List Event)
    (hg : loop_guard mr s.request_count = false) :
    run_loop now mr s (e :: rest) = (s, .requestLimit) := by
  rw [run_loop]
  simp only [hg, Bool.false_eq_true, if_false]

/-- Loop step: an exhausted script with a passing guard leaves the run in
the `outOfScript` marker state. -/
theorem run_loop_nil_go (now : Date) (mr : Option Nat) (s : ScrapeState)
    (hg : loop_guard mr s.request_count = true) :
    run_loop now mr s [] = (s, .outOfScript) := by
  rw [run_loop, if_pos hg]

/-- Loop step: a false guard with an exhausted script stops the run as
`requestLimit`. -/
theorem run_loop_nil_stop (now : Date) (mr : Option Nat) (s : ScrapeState)
    (hg : loop_guard mr s.request_count = false) :
    run_loop now mr s [] = (s, .requestLimit) := by
  rw [run_loop]
  simp only [hg, Bool.false_eq_true, if_false]

/-- Loop step: a `KeyboardInterrupt` during the cycle ends the run as
`interrupted`; the counter was already incremented. -/
theorem run_loop_interrupt (now : Date) (mr : Option Nat) (s : ScrapeState)
    (rest : List Event) (hg : loop_guard mr s.request_count = true) :
    run_loop now mr s (.interrupt :: rest)
      = ({ s with request_count := s.request_count + 1 }, .interrupted) := by
  rw [run_loop, if_pos hg]

/-- Loop step: a status other than 200 ends the run as `non200`. -/
theorem run_loop_non200 (now : Date) (mr : Option Nat) (s : ScrapeState)
    (status : Option Nat) (body : Body) (rest : List Event)
    (hg : loop_guard mr s.request_count = true) (hs : status ≠ some 200) :
    run_loop now mr s (.resp status body :: rest)
      = ({ s with request_count := s.request_count + 1 }, .non200) := by
  rw [run_loop, if_pos hg]
  simp only [if_pos hs]

/-- Loop step: a 200 response whose body is raw text containing the
substring `"data"` raises `TypeError` in the extractor, ending the run as
`crashed`. -/
theorem run_loop_crash (now : Date) (mr : Option Nat) (s : ScrapeState)
    (str : String) (rest : List Event)
    (hg : loop_guard mr s.request_count = true)
    (hc : containsSub "data".toList str.toList = true) :
    run_loop now mr s (.resp (some 200) (.text str) :: rest)
      = ({ s with request_count := s.request_count + 1 },
         .crashed .typeError) := by
  rw [run_loop, if_pos hg]
  simp only [ne_eq, not_true_eq_false, if_false, extract_users_from_body, hc, if_true]

/-- Loop step: a 200 response whose body is raw text without the substring
`"data"` extracts zero users, ending the run as `emptyPage`. -/
theorem run_loop_text_ok (now : Date) (mr : Option Nat) (s : ScrapeState)
    (str : String) (rest : List Event)
    (hg : loop_guard mr s.request_count = true)
    (hc : containsSub "data".toList str.toList = false) :
    run_loop now mr s (.resp (some 200) (.text str) :: rest)
      = ({ s with request_count := s.request_count + 1 }, .emptyPage) := by
  rw [run_loop, if_pos hg]
  simp only [ne_eq, not_true_eq_false, if_false, extract_users_from_body, hc,
    Bool.false_eq_true, if_false]
  rfl

/-- Loop step: a 200 response with a parsed JSON page runs the extractor;
with new users the batch is appended to the CSV and the loop continues,
otherwise the run ends as `emptyPage`. -/
theorem run_loop_json (now : Date) (mr : Option Nat) (s : ScrapeState)
    (p : Page) (nc : List UserRecord) (cnt : Nat) (rest : List Event)
    (hg : loop_guard mr s.request_count = true)
    (hx : extract_users_from_response now s.users_collected p = (nc, cnt)) :
    run_loop now mr s (.resp (some 200) (.json p) :: rest)
      = if cnt > 0 then
          run_loop now mr
            ⟨s.request_count + 1, nc,
             s.csv_rows ++ nc.drop s.users_collected.length⟩ rest
        else (⟨s.request_count + 1, nc, s.csv_rows⟩, .emptyPage) := by
  rw [run_loop, if_pos hg]
  simp only [ne_eq, not_true_eq_false, if_false, extract_users_from_body, hx,
    save_users_to_csv_eq]

/-- `processResult` adds to the collection exactly as often as it
increments `users_found`. -/
theorem processResult_count (now : Date) (acc : List UserRecord × Nat)
    (e : ResultEntry) :
    (processResult now acc e).1.length + acc.2
      = acc.1.length + (processResult now acc e).2 := by
  rcases processResult_cases now acc e with h | ⟨uid, _, _, h⟩
  · rw [h]
  · rw [h]
    simp only [List.length_append, List.length_singleton]
    omega

/-- A fold of `processResult` adds to the collection exactly as often as it
increments `users_found`. -/
theorem foldl_processResult_count (now : Date) (rs : List ResultEntry) :
    ∀ acc : List UserRecord × Nat,
      (rs.foldl (processResult now) acc).1.length + acc.2
        = acc.1.length + (rs.foldl (processResult now) acc).2 := by
  induction rs with
  | nil => intro acc; rfl
  | cons e rest ih =>
    intro acc
    rw [List.foldl_cons]
    have h1 := processResult_count now acc e
    have h2 := ih (processResult now acc e)
    omega

/-- The extractor grows the collection by exactly the count it returns. -/
theorem extract_count (now : Date) (collected : List UserRecord) (p : Page) :
    (extract_users_from_response now collected p).1.length
      = collected.length + (extract_users_from_response now collected p).2 := by
  cases p with
  | noData => rfl
  | noResults => rfl
  | results rs =>
    have h := foldl_processResult_count now rs (collected, 0)
    simpa using h

/-- An extraction that reports zero new users leaves the collection
unchanged. -/
theorem extract_zero_eq (now : Date) (collected : List UserRecord) (p : Page)
    (h : (extract_users_from_response now collected p).2 = 0) :
    (extract_users_from_response now collected p).1 = collected := by
  obtain ⟨tl, htl⟩ := extract_grow now collected p
  have hc := extract_count now collected p
  rw [h, htl] at hc
  have hlen : tl.length = 0 := by
    rw [List.length_append] at hc
    omega
  rw [htl, List.eq_nil_of_length_eq_zero hlen, List.append_nil]

/-- Loop invariant of `run_loop`: collected ids stay pairwise distinct and
the CSV rows mirror the collection, on every exit path. -/
theorem run_loop_inv (now : Date) (mr : Option Nat) (events : List Event) :
    ∀ s : ScrapeState,
      (s.users_collected.map UserRecord.user_id).Nodup →
      s.csv_rows = s.users_collected →
      ((run_loop now mr s events).1.users_collected.map
        UserRecord.user_id).Nodup ∧
      (run_loop now mr s events).1.csv_rows
        = (run_loop now mr s events).1.users_collected := by
  induction events with
  | nil =>
    intro s h1 h2
    rw [run_loop]
    split
    · exact ⟨h1, h2⟩
    · exact ⟨h1, h2⟩
  | cons e rest ih =>
    intro s h1 h2
    cases hg : loop_guard mr s.request_count with
    | false =>
      rw [run_loop_limit now mr s e rest hg]
      exact ⟨h1, h2⟩
    | true =>
      cases e with
      | interrupt =>
        rw [run_loop_interrupt now mr s rest hg]
        exact ⟨h1, h2⟩
      | resp status body =>
        by_cases hs : status ≠ some 200
        · rw [run_loop_non200 now mr s status body rest hg hs]
          exact ⟨h1, h2⟩
        · push_neg at hs
          subst hs
          cases body with
          | text str =>
            cases hc : containsSub "data".toList str.toList with
            | true =>
              rw [run_loop_crash now mr s str rest hg hc]
              exact ⟨h1, h2⟩
            | false =>
              rw [run_loop_text_ok now mr s str rest hg hc]
              exact ⟨h1, h2⟩
          | json p =>
            rcases hx : extract_users_from_response now s.users_collected p
              with ⟨nc, cnt⟩
            rw [run_loop_json now mr s p nc cnt rest hg hx]
            have hnod : (nc.map UserRecord.user_id).Nodup := by
              have hn := extract_nodup now s.users_collected p h1
              rw [hx] at hn
              exact hn
            obtain ⟨tl, htl⟩ := extract_grow now s.users_collected p
            rw [hx] at htl
            dsimp only at htl
            by_cases hcnt : cnt > 0
            · rw [if_pos hcnt]
              refine ih _ hnod ?_
              dsimp only
              rw [h2, htl, List.drop_left]
            · rw [if_neg hcnt]
              refine ⟨hnod, ?_⟩
              have hz : (extract_users_from_response now s.users_collected p).2
                  = 0 := by
                rw [hx]
                omega
              have hnc : nc = s.users_collected := by
                have he := extract_zero_eq now s.users_collected p hz
                rw [hx] at he
                exact he
              dsimp only
              rw [h2, hnc]

/-- The guard of a positive limit fails exactly at the limit. -/
theorem loop_guard_false_iff (N c : Nat) (hN : N ≠ 0) :
    loop_guard (some N) c = false ↔ N ≤ c := by
  show (if N = 0 then true else decide (c < N)) = false ↔ N ≤ c
  rw [if_neg hN]
  simp [Nat.not_lt]

/-- The guard of a positive limit passes exactly below the limit. -/
theorem loop_guard_true_iff (N c : Nat) (hN : N ≠ 0) :
    loop_guard (some N) c = true ↔ c < N := by
  show (if N = 0 then true else decide (c < N)) = true ↔ c < N
  rw [if_neg hN]
  simp

/-- With a positive configured limit `N`, `run_loop` never pushes the
request counter past `N`, and a `requestLimit` stop happens exactly at `N`. -/
theorem run_loop_le (now : Date) (N : Nat) (hN : N ≠ 0) (events : List Event) :
    ∀ s : ScrapeState, s.request_count ≤ N →
      (run_loop now (some N) s events).1.request_count ≤ N ∧
      ((run_loop now (some N) s events).2 = .requestLimit →
        (run_loop now (some N) s events).1.request_count = N) := by
  induction events with
  | nil =>
    intro s hle
    cases hg : loop_guard (some N) s.request_count with
    | true =>
      rw [run_loop_nil_go now (some N) s hg]
      exact ⟨hle, fun h => by simp at h⟩
    | false =>
      rw [run_loop_nil_stop now (some N) s hg]
      exact ⟨hle, fun _ =>
        le_antisymm hle ((loop_guard_false_iff N s.request_count hN).mp hg)⟩
  | cons e rest ih =>
    intro s hle
    cases hg : loop_guard (some N) s.request_count with
    | false =>
      rw [run_loop_limit now (some N) s e rest hg]
      exact ⟨hle, fun _ =>
        le_antisymm hle ((loop_guard_false_iff N s.request_count hN).mp hg)⟩
    | true =>
      have hle1 : s.request_count + 1 ≤ N :=
        (loop_guard_true_iff N s.request_count hN).mp hg
      cases e with
      | interrupt =>
        rw [run_loop_interrupt now (some N) s rest hg]
        exact ⟨hle1, fun h => by simp at h⟩
      | resp status body =>
        by_cases hs : status ≠ some 200
        · rw [run_loop_non200 now (some N) s status body rest hg hs]
          exact ⟨hle1, fun h => by simp at h⟩
        · push_neg at hs
          subst hs
          cases body with
          | text str =>
            cases hc : containsSub "data".toList str.toList with
            | true =>
              rw [run_loop_crash now (some N) s str rest hg hc]
              exact ⟨hle1, fun h => by simp at h⟩
            | false =>
              rw [run_loop_text_ok now (some N) s str rest hg hc]
              exact ⟨hle1, fun h => by simp at h⟩
          | json p =>
            rcases hx : extract_users_from_response now s.users_collected p
              with ⟨nc, cnt⟩
            rw [run_loop_json now (some N) s p nc cnt rest hg hx]
            by_cases hcnt : cnt > 0
            · rw [if_pos hcnt]
              exact ih _ hle1
            · rw [if_neg hcnt]
              exact ⟨hle1, fun h => by simp at h⟩

/-- A limit of `some 0` drives the loop exactly as no limit at all does:
Python `not 0` is true, so the guard always passes. -/
theorem run_loop_zero_eq_none (now : Date) (events : List Event) :
    ∀ s : ScrapeState,
      run_loop now (some 0) s events = run_loop now none s events := by
  induction events with
  | nil => intro s; rfl
  | cons e rest ih =>
    intro s
    cases e with
    | interrupt =>
      rw [run_loop_interrupt now (some 0) s rest rfl,
        run_loop_interrupt now none s rest rfl]
    | resp status body =>
      by_cases hs : status ≠ some 200
      · rw [run_loop_non200 now (some 0) s status body rest rfl hs,
          run_loop_non200 now none s status body rest rfl hs]
      · push_neg at hs
        subst hs
        cases body with
        | text str =>
          cases hc : containsSub "data".toList str.toList with
          | true =>
            rw [run_loop_crash now (some 0) s str rest rfl hc,
              run_loop_crash now none s str rest rfl hc]
          | false =>
            rw [run_loop_text_ok now (some 0) s str rest rfl hc,
              run_loop_text_ok now none s str rest rfl hc]
        | json p =>
          rcases hx : extract_users_from_response now s.users_collected p
            with ⟨nc, cnt⟩
          rw [run_loop_json now (some 0) s p nc cnt rest rfl hx,
            run_loop_json now none s p nc cnt rest rfl hx]
          by_cases hcnt : cnt > 0
          · rw [if_pos hcnt, if_pos hcnt]
            exact ih _
          · rw [if_neg hcnt, if_neg hcnt]

/-! ## Sample data for concrete runs -/

/-- A sample result entry: a user with the given id, a name, and no other
fields. -/
def sampleEntry (uid : String) : ResultEntry :=
  ⟨some "user", some ⟨some uid, some ("user " ++ uid), none, none, []⟩⟩

/-- A sample user object with photo urls `"a"`, `""`, `"b"`. -/
def photoUser : UserObj :=
  ⟨some "x1", some "Alice", none, none, [⟨some "a"⟩, ⟨some ""⟩, ⟨some "b"⟩]⟩

/-- A result entry wrapping `photoUser`. -/
def photoEntry : ResultEntry := ⟨some "user", some photoUser⟩

/-- The 3-page scenario of the spec: page 1 brings users `a` and `b`,
page 2 brings `c` and a duplicate of `a`, page 3 is HTTP 429. -/
def threePageRun : ScrapeState × StopReason × Summary :=
  run_continuous_scraping ⟨2024, 6, 15⟩ "tinder_users_20240615_120000.csv" none
    [Event.resp (some 200) (Body.json (.results [sampleEntry "a", sampleEntry "b"])),
     Event.resp (some 200) (Body.json (.results [sampleEntry "c", sampleEntry "a"])),
     Event.resp (some 429) (Body.text "Too Many Requests")]

/-! ## Claim theorems -/

/-- C1: within one run, at most one record per `user_id` is ever appended
and persisted.  The extractor preserves distinctness of collected ids, the
dedup scan skips entries whose id already occurs (so re-extracting the same
results list adds nothing — insertion is idempotent under duplicate
arrivals), and across a whole run the collected ids stay pairwise distinct
while the CSV rows mirror the collection exactly. -/
theorem extract_users_dedup (now : Date) (collected : List UserRecord)
    (p : Page) (rs : List ResultEntry) (csv_filename : String)
    (max_requests : Option Nat) (events : List Event)
    (h : (collected.map UserRecord.user_id).Nodup) :
    ((extract_users_from_response now collected p).1.map
      UserRecord.user_id).Nodup ∧
    extract_users_from_response now
        (extract_users_from_response now collected (.results rs)).1 (.results rs)
      = ((extract_users_from_response now collected (.results rs)).1, 0) ∧
    ((run_continuous_scraping now csv_filename max_requests
        events).1.users_collected.map UserRecord.user_id).Nodup ∧
    (run_continuous_scraping now csv_filename max_requests events).1.csv_rows
      = (run_continuous_scraping now csv_filename max_requests
          events).1.users_collected := by
  have hrun := run_loop_inv now max_requests events initState
    List.nodup_nil rfl
  exact ⟨extract_nodup now collected p h, extract_idem now collected rs,
    hrun.1, hrun.2⟩

/-- Witness for C1 at concrete inputs: the empty collection has distinct
ids, and extracting a one-entry page twice adds the entry only once. -/
theorem extract_users_dedup_witness :
    (([] : List UserRecord).map UserRecord.user_id).Nodup ∧
    extract_users_from_response ⟨2024, 6, 15⟩
        (extract_users_from_response ⟨2024, 6, 15⟩ []
          (.results [sampleEntry "a"])).1 (.results [sampleEntry "a"])
      = ((extract_users_from_response ⟨2024, 6, 15⟩ []
          (.results [sampleEntry "a"])).1, 0) :=
  ⟨List.nodup_nil,
    (extract_users_dedup ⟨2024, 6, 15⟩ [] .noData [sampleEntry "a"] "f.csv"
      none [] List.nodup_nil).2.1⟩

/-- C2: on the 3-page script (2 new users, then 1 new + 1 duplicate, then
HTTP 429) the run stores exactly 3 records in memory and in the CSV, stops
at request 3 with the non-success status, and the summary reports 3
requests and 3 unique users. -/
theorem three_page_run_observables :
    threePageRun.1.users_collected.length = 3 ∧
    threePageRun.1.csv_rows.length = 3 ∧
    threePageRun.1.request_count = 3 ∧
    threePageRun.2.1 = .non200 ∧
    threePageRun.2.2.total_requests = 3 ∧
    threePageRun.2.2.total_users = 3 := by decide

/-- C3 counterexample: a 200 response whose body fails JSON parsing does
not end the run as a non-success stop.  With raw body containing the
substring `"data"` the extractor raises `TypeError` and the run crashes;
without it the run ends as an empty-page stop — neither is the claimed
graceful non-success stop, and the first is a crash. -/
theorem json_failure_counterexample :
    (run_continuous_scraping ⟨2024, 6, 15⟩ "f.csv" none
        [.resp (some 200) (.text "data: <html>502 Bad Gateway</html>")]).2.1
      = .crashed .typeError ∧
    (run_continuous_scraping ⟨2024, 6, 15⟩ "f.csv" none
        [.resp (some 200) (.text "<html>502 Bad Gateway</html>")]).2.1
      = .emptyPage := by decide

/-- C3 amended: a 200 body that failed JSON parsing is handed to the
extractor as raw text.  If the text lacks the substring `"data"`, the run
stops gracefully as an empty page; if it contains `"data"`, a `TypeError`
escapes and the run crashes (the summary still runs first). -/
theorem json_failure_behavior (now : Date) (csv_filename s : String)
    (mr : Option Nat) (rest : List Event) :
    (run_continuous_scraping now csv_filename mr
        (.resp (some 200) (.text s) :: rest)).2.1
      = if containsSub "data".toList s.toList then .crashed .typeError
        else .emptyPage := by
  cases hc : containsSub "data".toList s.toList with
  | true =>
    show (run_loop now mr initState (.resp (some 200) (.text s) :: rest)).2 = _
    rw [run_loop_crash now mr initState s rest (loop_guard_zero mr) hc]
    rfl
  | false =>
    show (run_loop now mr initState (.resp (some 200) (.text s) :: rest)).2 = _
    rw [run_loop_text_ok now mr initState s rest (loop_guard_zero mr) hc]
    rfl

/-- C4: on every parsable birth-date string, `calculate_age` returns
`now.year - birth.year`, minus one exactly when `(now.month, now.day)` is
lexicographically before `(birth.month, birth.day)`. -/
theorem calculate_age_formula (now : Date) (birth_date_str : String)
    (birth_date : Date)
    (h : parseIsoDate (pyReplace birth_date_str "Z" "+00:00")
      = some birth_date) :
    calculate_age now birth_date_str
      = .age ((now.year : Int) - (birth_date.year : Int) -
          (if now.month < birth_date.month ∨
              (now.month = birth_date.month ∧ now.day < birth_date.day)
           then 1 else 0)) := by
  unfold calculate_age
  by_cases h0 : birth_date_str = "" ∨ birth_date_str = "N/A"
  · exfalso
    rcases h0 with rfl | rfl
    · have h1 : parseIsoDate (pyReplace "" "Z" "+00:00") = none := by decide
      rw [h1] at h
      exact Option.noConfusion h
    · have h1 : parseIsoDate (pyReplace "N/A" "Z" "+00:00") = none := by decide
      rw [h1] at h
      exact Option.noConfusion h
  · rw [if_neg h0]
    simp only [h]
    by_cases hc : now.month < birth_date.month ∨
        (now.month = birth_date.month ∧ now.day < birth_date.day)
    · rw [if_pos hc, if_pos hc]
    · rw [if_neg hc, if_neg hc]
      simp

/-- Witness for C4: birth date 2000-06-15 parses, and gives age 23 on
2024-06-14 and age 24 on 2024-06-15. -/
theorem calculate_age_formula_witness :
    parseIsoDate (pyReplace "2000-06-15" "Z" "+00:00") = some ⟨2000, 6, 15⟩ ∧
    calculate_age ⟨2024, 6, 14⟩ "2000-06-15" = .age 23 ∧
    calculate_age ⟨2024, 6, 15⟩ "2000-06-15" = .age 24 := by
  refine ⟨by decide, ?_, ?_⟩
  · rw [calculate_age_formula ⟨2024, 6, 14⟩ "2000-06-15" ⟨2000, 6, 15⟩
      (by decide)]
    decide
  · rw [calculate_age_formula ⟨2024, 6, 15⟩ "2000-06-15" ⟨2000, 6, 15⟩
      (by decide)]
    decide

/-- C5: on an empty string, the literal `"N/A"`, or any string the date
parser rejects, `calculate_age` returns the `N/A` sentinel (and, being
total, raises nothing). -/
theorem calculate_age_sentinel (now : Date) (birth_date_str : String)
    (h : birth_date_str = "" ∨ birth_date_str = "N/A" ∨
      parseIsoDate (pyReplace birth_date_str "Z" "+00:00") = none) :
    calculate_age now birth_date_str = .na := by
  unfold calculate_age
  rcases h with rfl | rfl | hp
  · rw [if_pos (Or.inl rfl)]
  · rw [if_pos (Or.inr rfl)]
  · by_cases h0 : birth_date_str = "" ∨ birth_date_str = "N/A"
    · rw [if_pos h0]
    · rw [if_neg h0]
      simp only [hp]

/-- Witness for C5: `"not-a-date"` does not parse and yields the
sentinel. -/
theorem calculate_age_sentinel_witness :
    ("not-a-date" = "" ∨ "not-a-date" = "N/A" ∨
      parseIsoDate (pyReplace "not-a-date" "Z" "+00:00") = none) ∧
    calculate_age ⟨2024, 6, 15⟩ "not-a-date" = .na :=
  ⟨by decide, calculate_age_sentinel ⟨2024, 6, 15⟩ "not-a-date" (by decide)⟩

/-- The extractor's url projection equals: take every present `url` field,
then drop the empty ones. -/
theorem photo_url_filterMap (ps : List Photo) :
    (ps.filterMap fun p =>
      match p.url with
      | some u => if u = "" then none else some u
      | none => none)
      = (ps.filterMap Photo.url).filter fun u => u ≠ "" := by
  induction ps with
  | nil => rfl
  | cons p rest ih =>
    cases hp : p.url with
    | none => simp [List.filterMap_cons, hp, ih]
    | some u =>
      by_cases hu : u = ""
      · simp [List.filterMap_cons, hp, hu, ih]
      · simp [List.filterMap_cons, hp, hu, ih]

/-- C6: the record stored for a fresh user has `photo_count` equal to the
total number of photo entries before filtering, and `photo_urls` equal to
the non-empty `url` fields joined in source order with `" | "`. -/
theorem photo_fields (now : Date) (collected : List UserRecord)
    (e : ResultEntry) (user : UserObj) (uid : String)
    (h1 : e.type = some "user") (h2 : e.user = some user)
    (h3 : user.id = some uid) (h4 : uid ≠ "")
    (h5 : collected.any (fun u => u.user_id = uid) = false) :
    ∃ r, extract_users_from_response now collected (.results [e])
        = (collected ++ [r], 1) ∧
      r.photo_count = user.photos.length ∧
      r.photo_urls = String.intercalate " | "
        ((user.photos.filterMap Photo.url).filter fun u => u ≠ "") := by
  have helig : eligibleId e = some uid := by
    unfold eligibleId
    rw [if_neg (by simp [h1] : ¬ e.type ≠ some "user"), h2]
    simp only [Option.getD_some, h3]
    rw [if_neg h4]
  have happ := processResult_app now (collected, 0) e uid helig h5
  refine ⟨mkRecord now (e.user.getD emptyUserObj) uid, ?_, ?_, ?_⟩
  · show [e].foldl (processResult now) (collected, 0) = _
    rw [List.foldl_cons, happ, List.foldl_nil]
  · rw [h2, Option.getD_some]
    rfl
  · rw [h2, Option.getD_some]
    have hproj : (mkRecord now user uid).photo_urls
        = String.intercalate " | " (user.photos.filterMap fun p =>
            match p.url with
            | some u => if u = "" then none else some u
            | none => none) := rfl
    rw [hproj, photo_url_filterMap]

/-- Witness for C6: photos `[a, "", b]` give `photo_count = 3` and
`photo_urls = "a | b"`. -/
theorem photo_fields_witness :
    ("x1" ≠ "") ∧
    (∃ r, extract_users_from_response ⟨2024, 6, 15⟩ [] (.results [photoEntry])
        = ([] ++ [r], 1) ∧
      r.photo_count = photoUser.photos.length ∧
      r.photo_urls = String.intercalate " | "
        ((photoUser.photos.filterMap Photo.url).filter fun u => u ≠ "")) :=
  ⟨by decide, photo_fields ⟨2024, 6, 15⟩ [] photoEntry photoUser "x1"
    rfl rfl rfl (by decide) rfl⟩

/-- C7: a parsed page lacking `data` or `data.results` extracts zero new
records without error, and a run receiving such a page stops as an empty
page. -/
theorem missing_results_empty_page (now : Date) (collected : List UserRecord)
    (csv_filename : String) (mr : Option Nat) (p : Page) (rest : List Event)
    (h : p = .noData ∨ p = .noResults) :
    extract_users_from_response now collected p = (collected, 0) ∧
    (run_continuous_scraping now csv_filename mr
        (.resp (some 200) (.json p) :: rest)).2.1 = .emptyPage := by
  have hext : ∀ c : List UserRecord,
      extract_users_from_response now c p = (c, 0) := by
    intro c
    rcases h with rfl | rfl
    · rfl
    · rfl
  refine ⟨hext collected, ?_⟩
  show (run_loop now mr initState (.resp (some 200) (.json p) :: rest)).2 = _
  rw [run_loop_json now mr initState p initState.users_collected 0 rest
    (loop_guard_zero mr) (hext _)]
  rfl

/-- Witness for C7 at the page with no `data` key. -/
theorem missing_results_empty_page_witness :
    (Page.noData = Page.noData ∨ Page.noData = Page.noResults) ∧
    extract_users_from_response ⟨2024, 6, 15⟩ [] .noData = ([], 0) :=
  ⟨Or.inl rfl, (missing_results_empty_page ⟨2024, 6, 15⟩ [] "f.csv" none
    .noData [] (Or.inl rfl)).1⟩

/-- C8: with a positive configured maximum `N`, the run never issues more
than `N` requests, and a `requestLimit` stop happens exactly when the
counter has reached `N`. -/
theorem request_limit_enforced (now : Date) (csv_filename : String) (N : Nat)
    (events : List Event) (hN : N ≠ 0) :
    (run_continuous_scraping now csv_filename (some N)
        events).1.request_count ≤ N ∧
    ((run_continuous_scraping now csv_filename (some N) events).2.1
        = .requestLimit →
      (run_continuous_scraping now csv_filename (some N)
        events).1.request_count = N) := by
  exact run_loop_le now N hN events initState (Nat.zero_le N)

/-- Witness for C8: a limit of 2 against three productive pages issues
exactly 2 requests. -/
theorem request_limit_enforced_witness :
    (2 ≠ 0) ∧
    (run_continuous_scraping ⟨2024, 6, 15⟩ "f.csv" (some 2)
        [Event.resp (some 200) (Body.json (.results [sampleEntry "a"])),
         Event.resp (some 200) (Body.json (.results [sampleEntry "b"])),
         Event.resp (some 200) (Body.json (.results [sampleEntry "c"]))]
      ).1.request_count ≤ 2 :=
  ⟨by decide, (request_limit_enforced ⟨2024, 6, 15⟩ "f.csv" 2
    [Event.resp (some 200) (Body.json (.results [sampleEntry "a"])),
     Event.resp (some 200) (Body.json (.results [sampleEntry "b"])),
     Event.resp (some 200) (Body.json (.results [sampleEntry "c"]))]
    (by decide)).1⟩

/-- C9: on every exit path the summary step runs on the final state: it
reports the total requests issued, the number of unique records collected,
the storage location, and a preview that is the first at-most-5 collected
records. -/
theorem summary_always (now : Date) (csv_filename : String) (mr : Option Nat)
    (events : List Event) :
    (run_continuous_scraping now csv_filename mr events).2.2
      = make_summary csv_filename
          (run_continuous_scraping now csv_filename mr events).1 ∧
    (run_continuous_scraping now csv_filename mr events).2.2.total_requests
      = (run_continuous_scraping now csv_filename mr events).1.request_count ∧
    (run_continuous_scraping now csv_filename mr events).2.2.total_users
      = (run_continuous_scraping now csv_filename mr
          events).1.users_collected.length ∧
    (run_continuous_scraping now csv_filename mr events).2.2.csv_location
      = csv_filename ∧
    (run_continuous_scraping now csv_filename mr events).2.2.preview
      = (run_continuous_scraping now csv_filename mr
          events).1.users_collected.take 5 ∧
    (run_continuous_scraping now csv_filename mr
      events).2.2.preview.length ≤ 5 := by
  refine ⟨rfl, rfl, rfl, rfl, rfl, ?_⟩
  show ((run_loop now mr initState events).1.users_collected.take 5).length ≤ 5
  rw [List.length_take]
  exact min_le_left _ _

/-- C10: a configured maximum of 0 is falsy in the guard, so it behaves
exactly like no limit at all — the run is identical to the unlimited run on
every script. -/
theorem max_requests_zero_unlimited (now : Date) (csv_filename : String)
    (events : List Event) :
    run_continuous_scraping now csv_filename (some 0) events
      = run_continuous_scraping now csv_filename none events := by
  unfold run_continuous_scraping
  rw [run_loop_zero_eq_none now events initState]

end TinderScrap
